import Mathlib

/-!
Verification of the fps-timer frame-pacing library (src/lib.rs).

Modelling conventions:
* `Instant` and `Duration` are nanosecond counts (`Nat`); `Instant` subtraction
  (`duration_since`, `Sub`) saturates at zero, matching `Nat` subtraction.
* The successive results of `Instant::now()` are the samples of an abstract
  monotone, unbounded `Clock`; every function that reads the clock takes the
  index of the next unread sample and returns the index after the last sample
  it consumed.
* `thread::sleep` has no effect in the model beyond its observable request:
  the wait primitives record the duration passed to `thread::sleep`
  (`none` when no sleep call is made).
* `f64` values are modelled as exact rationals; `Duration::from_secs_f64`
  rounds seconds to the nearest nanosecond, and IEEE-754 division of a
  positive finite value by zero yields positive infinity (it never traps).
-/

/-- A monotone, unbounded clock: `sample i` is the result of the i-th call to
`Instant::now()`. -/
structure Clock where
  sample : Nat → Nat
  mono : ∀ i j, i ≤ j → sample i ≤ sample j
  unbounded : ∀ t, ∃ i, t ≤ sample i

theorem Clock.reach_exists (c : Clock) (i target : Nat) :
    ∃ k, target ≤ c.sample (i + k) := by
  obtain ⟨j, hj⟩ := c.unbounded target
  rcases Nat.le_total i j with h | h
  · exact ⟨j - i, by rwa [Nat.add_sub_cancel' h]⟩
  · exact ⟨0, le_trans hj (c.mono j (i + 0) (by omega))⟩

/-- Source `busy_wait_until` (lines 74-83): spin, re-sampling the clock, until
a sample reaches or passes `target`; return that sample, together with the
index of the next unread sample. -/
def busy_wait_until (c : Clock) (i target : Nat) : Nat × Nat :=
  let k := Nat.find (c.reach_exists i target)
  (c.sample (i + k), i + k + 1)

theorem busy_wait_until_le (c : Clock) (i target : Nat) :
    target ≤ (busy_wait_until c i target).1 :=
  Nat.find_spec (c.reach_exists i target)

/-- Result of a wait primitive: the returned timestamp, the duration passed to
`thread::sleep` (if the sleep call was made at all), and the index of the next
unread clock sample. -/
structure WaitResult where
  time : Nat
  suspended : Option Nat
  next : Nat

/-- Source `sleep_until` (lines 60-72): early-out when already at or past
`target`, otherwise `thread::sleep` for the whole remaining gap, then
busy-spin. -/
def sleep_until (c : Clock) (i target : Nat) : WaitResult :=
  let now := c.sample i
  if target ≤ now then
    ⟨now, none, i + 1⟩
  else
    let suspend_duration := target - now
    let r := busy_wait_until c (i + 1) target
    ⟨r.1, some suspend_duration, r.2⟩

/-- Source `sleep_until_high_precision` (lines 35-58): sleep for
`approx_duration - maxBusyWait` only when the gap exceeds the reserved
busy-wait margin (`MAX_BUSY_WAIT`: 250 microseconds on unix, 1 millisecond
otherwise, passed here as the parameter `maxBusyWait`), then busy-spin. -/
def sleep_until_high_precision (maxBusyWait : Nat) (c : Clock) (i target : Nat) :
    WaitResult :=
  let now := c.sample i
  if target ≤ now then
    ⟨now, none, i + 1⟩
  else
    let approx_duration := target - now
    let suspended := if maxBusyWait < approx_duration
      then some (approx_duration - maxBusyWait) else none
    let r := busy_wait_until c (i + 1) target
    ⟨r.1, suspended, r.2⟩

/-- Reserved busy-wait margin of the high-precision wait on unix (250us). -/
def MAX_BUSY_WAIT_UNIX : Nat := 250000

/-- Reserved busy-wait margin of the high-precision wait elsewhere (1ms). -/
def MAX_BUSY_WAIT_OTHER : Nat := 1000000

/-- Source `Log` (lines 85-90): snapshot of one logging interval, with the
average frame duration `delta_avg` in nanoseconds. -/
structure Log where
  delta_avg : Nat

/-- Model of `Duration::as_secs_f64`: nanoseconds to rational seconds. -/
def asSecsF64 (d : Nat) : ℚ := (d : ℚ) / 1000000000

/-- Model of an `f64` result that is either finite or positive infinity. -/
inductive F64 where
  | finite : ℚ → F64
  | posInf : F64

/-- IEEE-754 `f64` division for a finite positive dividend and a nonnegative
finite divisor: division by zero yields positive infinity and never traps. -/
def f64Div (a b : ℚ) : F64 :=
  if b = 0 then F64.posInf else F64.finite (a / b)

/-- Source `Log::delta_time_avg` (lines 94-96). -/
def Log.delta_time_avg (l : Log) : Nat := l.delta_avg

/-- Source `Log::delta_time_avg_ms` (lines 100-102). -/
def Log.delta_time_avg_ms (l : Log) : ℚ := asSecsF64 l.delta_avg * 1000

/-- Source `Log::fps_average` (lines 105-107): `1. / delta_avg.as_secs_f64()`. -/
def Log.fps_average (l : Log) : F64 := f64Div 1 (asSecsF64 l.delta_avg)

/-- Source `Timer` struct (lines 7-28); all timestamps and durations in
nanoseconds. -/
structure Timer where
  previous : Nat
  previous_log : Nat
  target : Nat
  log_target : Nat
  delta_time : Nat
  log_interval : Nat
  prev_framecount : Nat
  framecount : Nat
  max_delay_frames : Nat
  high_precision : Bool

/-- Model of `Duration::from_secs_f64`: seconds rounded to the nearest
nanosecond. -/
def durationFromSecsF64 (s : ℚ) : Nat := (round (s * 1000000000)).toNat

/-- Source `Timer::default` (lines 110-128), at creation instant `now`. -/
def Timer.default (now : Nat) : Timer :=
  let delta_time := durationFromSecsF64 (1 / 60)
  let log_interval := 100000000
  { previous := now
    previous_log := now
    target := now + delta_time
    log_target := now + log_interval
    delta_time := delta_time
    log_interval := log_interval
    prev_framecount := 0
    framecount := 0
    max_delay_frames := 2
    high_precision := true }

/-- Source builder `Timer::log_interval` (lines 147-151); renamed because the
field of the same name takes the accessor name in Lean. -/
def Timer.setLogInterval (t : Timer) (li : Nat) : Timer :=
  { t with log_interval := li, log_target := t.previous + li }

/-- Source builder `Timer::frame_time` (lines 168-172). -/
def Timer.frame_time (t : Timer) (delta : Nat) : Timer :=
  { t with delta_time := delta, target := t.previous + delta }

/-- Source builder `Timer::fps` (lines 188-194): rate 0 gives a zero period,
otherwise the period is `from_secs_f64(1. / fps)`. -/
def Timer.fps (t : Timer) (f : ℚ) : Timer :=
  t.frame_time (if f = 0 then 0 else durationFromSecsF64 (1 / f))

/-- Source builder `Timer::high_precision` (lines 216-219); renamed because
the field of the same name takes the accessor name in Lean. -/
def Timer.setHighPrecision (t : Timer) (enabled : Bool) : Timer :=
  { t with high_precision := enabled }

/-- Source `Timer::slack` (lines 315-317). -/
def Timer.slack (t : Timer) : Nat := t.max_delay_frames * t.delta_time

/-- Catch-up decision of `Timer::frame` (lines 249-265): the deadline actually
used by the call, given the pre-wait clock sample `current`. -/
def Timer.deadline (t : Timer) (current : Nat) : Nat :=
  let behind := if t.target < current then current - t.target else 0
  if t.slack < behind then current else t.target

/-- Result of one `Timer::frame` call: the returned frame time, the updated
timer, the index of the next unread clock sample, and the duration of the
`thread::sleep` request made during the call, if any. -/
structure FrameResult where
  frame_time : Nat
  timer : Timer
  next : Nat
  suspended : Option Nat

/-- Source `Timer::frame` (lines 242-284), with `maxBusyWait` the platform
`MAX_BUSY_WAIT` constant and `i` the index of the `Instant::now()` sample
taken at line 247. -/
def Timer.frame (maxBusyWait : Nat) (c : Clock) (t : Timer) (i : Nat) :
    FrameResult :=
  let framecount := t.framecount + 1
  let current := c.sample i
  if 0 < t.delta_time then
    let target := t.deadline current
    if current < target then
      let w := if t.high_precision
        then sleep_until_high_precision maxBusyWait c (i + 1) target
        else sleep_until c (i + 1) target
      { frame_time := w.time - t.previous
        timer := { t with framecount := framecount,
                          target := target + t.delta_time,
                          previous := w.time }
        next := w.next
        suspended := w.suspended }
    else
      { frame_time := current - t.previous
        timer := { t with framecount := framecount,
                          target := target + t.delta_time,
                          previous := current }
        next := i + 1
        suspended := none }
  else
    { frame_time := current - t.previous
      timer := { t with framecount := framecount, previous := current }
      next := i + 1
      suspended := none }

/-- Timestamp at which `Timer::frame` stops waiting (the value of `current`
after line 274): the initial sample when no wait happens, otherwise the return
value of the wait primitive. -/
def Timer.unblock (maxBusyWait : Nat) (c : Clock) (t : Timer) (i : Nat) : Nat :=
  let current := c.sample i
  if 0 < t.delta_time then
    let target := t.deadline current
    if current < target then
      (if t.high_precision
        then sleep_until_high_precision maxBusyWait c (i + 1) target
        else sleep_until c (i + 1) target).time
    else current
  else current

/-- Source `Timer::log` (lines 290-309). The frame-count difference is a `u64`
cast `as u32` (truncation mod 2^32); `Duration / u32` panics in Rust when the
divisor is zero, where `Nat` division returns 0. -/
def Timer.log (t : Timer) : Option Log × Timer :=
  let current := t.previous
  if current < t.log_target then
    (none, t)
  else
    let frames := (t.framecount - t.prev_framecount) % 4294967296
    let delta_avg := (current - t.previous_log) / frames
    (some { delta_avg := delta_avg },
     { t with log_target := current + t.log_interval
              previous_log := current
              prev_framecount := t.framecount })

/-- Clock whose i-th sample is `s + i`. -/
def shiftClock (s : Nat) : Clock where
  sample := fun i => s + i
  mono := fun _ _ h => Nat.add_le_add_left h s
  unbounded := fun t => ⟨t, Nat.le_add_left t s⟩

/-- Clock whose i-th sample is `i`. -/
def idClock : Clock where
  sample := fun i => i
  mono := fun _ _ h => h
  unbounded := fun t => ⟨t, Nat.le_refl t⟩

/-- One mutation of a `Timer` by its loop: a `frame` call (with any clock,
sample index and platform constant) or a `log` call. -/
inductive Step : Timer → Timer → Prop where
  | frame (maxBusyWait : Nat) (c : Clock) (t : Timer) (i : Nat) :
      Step t (Timer.frame maxBusyWait c t i).timer
  | log (t : Timer) : Step t (Timer.log t).2

/-- Reflexive-transitive closure of `Step`: every state a timer can reach
through a sequence of `frame` and `log` calls. -/
inductive Reach : Timer → Timer → Prop where
  | refl (t : Timer) : Reach t t
  | tail {t u v : Timer} : Reach t u → Step u v → Reach t v

/-- Invariant guaranteeing at least one frame per produced log snapshot: the
logging interval is positive, and either the next log deadline is still ahead
of `previous`, or a frame has occurred since the last snapshot. -/
def LogInv (t : Timer) : Prop :=
  0 < t.log_interval ∧ t.prev_framecount ≤ t.framecount ∧
    (t.previous < t.log_target ∨ t.prev_framecount < t.framecount)

/-- Projections of the timer returned by `frame` that the pacing logic never
touches, plus the incremented frame count. -/
lemma frame_timer_fields (mbw : Nat) (c : Clock) (t : Timer) (i : Nat) :
    (Timer.frame mbw c t i).timer.framecount = t.framecount + 1 ∧
    (Timer.frame mbw c t i).timer.prev_framecount = t.prev_framecount ∧
    (Timer.frame mbw c t i).timer.log_interval = t.log_interval ∧
    (Timer.frame mbw c t i).timer.log_target = t.log_target ∧
    (Timer.frame mbw c t i).timer.previous_log = t.previous_log := by
  simp only [Timer.frame]
  split_ifs <;> simp

/-- The catch-up decision written with saturating subtraction. -/
lemma deadline_eq (t : Timer) (cur : Nat) :
    t.deadline cur = if t.slack < cur - t.target then cur else t.target := by
  simp only [Timer.deadline]
  by_cases h : t.target < cur
  · rw [if_pos h]
  · rw [if_neg h, Nat.sub_eq_zero_of_le (Nat.le_of_not_lt h)]

/-- With a positive period, `frame` leaves `target` one period past the
deadline it used. -/
lemma frame_target_eq (mbw : Nat) (c : Clock) (t : Timer) (i : Nat)
    (h : 0 < t.delta_time) :
    (Timer.frame mbw c t i).timer.target = t.deadline (c.sample i) + t.delta_time := by
  simp only [Timer.frame]
  rw [if_pos h]
  split <;> rfl

/-- With a zero period, `frame` leaves `target` untouched. -/
lemma frame_target_zero (mbw : Nat) (c : Clock) (t : Timer) (i : Nat)
    (h : ¬ 0 < t.delta_time) :
    (Timer.frame mbw c t i).timer.target = t.target := by
  simp only [Timer.frame]
  rw [if_neg h]

/-- The frame time returned by `frame` is measured at the unblock timestamp,
which also becomes the new `previous`. -/
lemma frame_unblock_eq (mbw : Nat) (c : Clock) (t : Timer) (i : Nat) :
    (Timer.frame mbw c t i).frame_time = Timer.unblock mbw c t i - t.previous ∧
    (Timer.frame mbw c t i).timer.previous = Timer.unblock mbw c t i := by
  simp only [Timer.frame, Timer.unblock]
  split_ifs <;> exact ⟨rfl, rfl⟩

/-- Evaluation of `log` when the log deadline has not been reached. -/
lemma log_none (t : Timer) (h : t.previous < t.log_target) :
    Timer.log t = (none, t) := by
  simp only [Timer.log]
  rw [if_pos h]

/-- Evaluation of `log` when the log deadline has been reached. -/
lemma log_some (t : Timer) (h : ¬ t.previous < t.log_target) :
    Timer.log t =
      (some ⟨(t.previous - t.previous_log) /
          ((t.framecount - t.prev_framecount) % 4294967296)⟩,
       { t with log_target := t.previous + t.log_interval,
                previous_log := t.previous,
                prev_framecount := t.framecount }) := by
  simp only [Timer.log]
  rw [if_neg h]

/-- Claim C1: in every `frame` call with a positive period, with
`behind = max(0, current - target)` measured on the pre-wait clock sample and
`slack = max_delay_frames * delta_time`, the deadline the call schedules from
(visible as the final `target` minus the unconditional advance by one period)
is `current` when `behind > slack` and the unchanged `target` otherwise. -/
theorem frame_catchup_policy (mbw : Nat) (c : Clock) (t : Timer) (i : Nat)
    (h : 0 < t.delta_time) :
    (t.slack < c.sample i - t.target →
      (Timer.frame mbw c t i).timer.target = c.sample i + t.delta_time) ∧
    (c.sample i - t.target ≤ t.slack →
      (Timer.frame mbw c t i).timer.target = t.target + t.delta_time) := by
  rw [frame_target_eq mbw c t i h, deadline_eq]
  constructor
  · intro hb
    rw [if_pos hb]
  · intro hb
    rw [if_neg (not_lt.mpr hb)]

/-- Witness for C1: a call 50ns late with slack 20ns resets the schedule to
the current sample (100), a call 5ns late does not. -/
theorem frame_catchup_policy_w :
    (Timer.frame 0 (shiftClock 100)
      (⟨0, 0, 50, 1000, 10, 100, 0, 0, 2, false⟩ : Timer) 0).timer.target = 110 ∧
    (Timer.frame 0 (shiftClock 100)
      (⟨0, 0, 95, 1000, 10, 100, 0, 0, 2, false⟩ : Timer) 0).timer.target = 105 := by
  constructor
  · exact (frame_catchup_policy 0 (shiftClock 100)
      ⟨0, 0, 50, 1000, 10, 100, 0, 0, 2, false⟩ 0 (by decide)).1 (by decide)
  · exact (frame_catchup_policy 0 (shiftClock 100)
      ⟨0, 0, 95, 1000, 10, 100, 0, 0, 2, false⟩ 0 (by decide)).2 (by decide)

/-- Claim C2: `frame` returns the duration from the stored `previous` to the
timestamp at which it unblocked, updates `previous` to that timestamp, and
hence a subsequent call returns the elapsed time between the two unblock
timestamps. -/
theorem frame_returns_elapsed (mbw : Nat) (c : Clock) (t : Timer) (i j : Nat) :
    (Timer.frame mbw c t i).frame_time = Timer.unblock mbw c t i - t.previous ∧
    (Timer.frame mbw c t i).timer.previous = Timer.unblock mbw c t i ∧
    (Timer.frame mbw c ((Timer.frame mbw c t i).timer) j).frame_time
      = Timer.unblock mbw c ((Timer.frame mbw c t i).timer) j
        - Timer.unblock mbw c t i := by
  obtain ⟨h1, h2⟩ := frame_unblock_eq mbw c t i
  obtain ⟨h3, _⟩ := frame_unblock_eq mbw c ((Timer.frame mbw c t i).timer) j
  exact ⟨h1, h2, by rw [h3, h2]⟩

/-- Claim C3: with a zero period, `frame` takes exactly one clock sample,
makes no sleep request, performs no catch-up, returns `now - previous`, and
leaves every field except `framecount` and `previous` untouched. -/
theorem frame_zero_period (mbw : Nat) (c : Clock) (t : Timer) (i : Nat)
    (h : t.delta_time = 0) :
    Timer.frame mbw c t i =
      ⟨c.sample i - t.previous,
       { t with framecount := t.framecount + 1, previous := c.sample i },
       i + 1, none⟩ := by
  simp [Timer.frame, h]

/-- Witness for C3: an uncapped timer measures 43ns of elapsed time against a
clock reading 50 and does not block. -/
theorem frame_zero_period_w :
    Timer.frame 0 (shiftClock 50) (⟨7, 0, 3, 100, 0, 100, 0, 4, 2, true⟩ : Timer) 0 =
      ⟨43, ⟨50, 0, 3, 100, 0, 100, 0, 5, 2, true⟩, 1, none⟩ :=
  frame_zero_period 0 (shiftClock 50) ⟨7, 0, 3, 100, 0, 100, 0, 4, 2, true⟩ 0 rfl

/-- Claim C5: with a positive period, `frame` always leaves `target` exactly
one period past the deadline used for the call (the value of `target` after
the catch-up decision). -/
theorem frame_target_advance (mbw : Nat) (c : Clock) (t : Timer) (i : Nat)
    (h : 0 < t.delta_time) :
    (Timer.frame mbw c t i).timer.target
      = t.deadline (c.sample i) + t.delta_time :=
  frame_target_eq mbw c t i h

/-- Witness for C5 at a concrete late call: the schedule resets to sample 100
and advances by the 10ns period. -/
theorem frame_target_advance_w :
    (Timer.frame 0 (shiftClock 100)
      (⟨0, 0, 60, 1000, 10, 100, 0, 0, 2, true⟩ : Timer) 0).timer.target
      = Timer.deadline (⟨0, 0, 60, 1000, 10, 100, 0, 0, 2, true⟩ : Timer)
          ((shiftClock 100).sample 0)
        + (⟨0, 0, 60, 1000, 10, 100, 0, 0, 2, true⟩ : Timer).delta_time :=
  frame_target_advance 0 (shiftClock 100)
    ⟨0, 0, 60, 1000, 10, 100, 0, 0, 2, true⟩ 0 (by decide)

/-- Claim C6: neither `frame` (the catch-up reset fires only when the clock is
strictly past `target`, and the advance adds a nonnegative period) nor `log`
(which never writes `target`) ever decreases the `target` field. -/
theorem target_monotone (mbw : Nat) (c : Clock) (t : Timer) (i : Nat) :
    t.target ≤ (Timer.frame mbw c t i).timer.target ∧
    (Timer.log t).2.target = t.target := by
  constructor
  · by_cases hd : 0 < t.delta_time
    · rw [frame_target_eq mbw c t i hd, deadline_eq]
      split_ifs with hb
      · omega
      · exact Nat.le_add_right _ _
    · rw [frame_target_zero mbw c t i hd]
  · by_cases hlt : t.previous < t.log_target
    · rw [log_none t hlt]
    · rw [log_some t hlt]

/-- Counterexample to claim C4: with the clock at 0 and a target 10ms away
(gap well above 1ms), the coarse wait `sleep_until` requests a thread-suspend
of the full 10ms gap, not the `gap - 1ms` the claim describes. -/
theorem sleep_until_full_gap_cex :
    (sleep_until idClock 0 10000000).suspended = some 10000000 ∧
    (10000000 : Nat) ≠ 10000000 - 1000000 := by
  exact ⟨rfl, by decide⟩

/-- Claim C4 (amended): the coarse wait, given a target timestamp, returns now
immediately with no suspend call when now is at or past the target; otherwise
it requests a thread-suspend for the full gap `target - now` (no reserved
margin, no skip) and then busy-spins until the clock reaches or passes the
target, returning a timestamp at or past the target. -/
theorem coarse_wait_spec (c : Clock) (i target : Nat) :
    (target ≤ c.sample i → sleep_until c i target = ⟨c.sample i, none, i + 1⟩) ∧
    (c.sample i < target →
      (sleep_until c i target).suspended = some (target - c.sample i) ∧
      target ≤ (sleep_until c i target).time) := by
  constructor
  · intro h
    simp only [sleep_until]
    rw [if_pos h]
  · intro h
    have hn : ¬ target ≤ c.sample i := not_le.mpr h
    refine ⟨?_, ?_⟩
    · simp only [sleep_until]
      rw [if_neg hn]
    · simp only [sleep_until]
      rw [if_neg hn]
      exact busy_wait_until_le c (i + 1) target

/-- Witness for C4 (amended): an already-reached target returns instantly with
no suspend request; a target 3 ticks ahead requests a 3-tick suspend and
resumes at or past the target. -/
theorem coarse_wait_spec_w :
    sleep_until idClock 0 0 = ⟨0, none, 1⟩ ∧
    (sleep_until idClock 0 3).suspended = some 3 ∧
    3 ≤ (sleep_until idClock 0 3).time := by
  refine ⟨(coarse_wait_spec idClock 0 0).1 (by decide), ?_, ?_⟩
  · exact ((coarse_wait_spec idClock 0 3).2 (by decide)).1
  · exact ((coarse_wait_spec idClock 0 3).2 (by decide)).2

/-- Claim C7: `log` produces a snapshot exactly when the stored `previous`
(it takes no clock sample of its own) has reached `log_target`, and when it
produces nothing the timer is left completely unchanged. -/
theorem log_snapshot_iff (t : Timer) :
    ((Timer.log t).1.isSome = true ↔ t.log_target ≤ t.previous) ∧
    (t.previous < t.log_target → Timer.log t = (none, t)) := by
  by_cases hlt : t.previous < t.log_target
  · rw [log_none t hlt]
    refine ⟨⟨fun hc => ?_, fun hle => absurd hle (by omega)⟩, fun _ => rfl⟩
    simp at hc
  · rw [log_some t hlt]
    exact ⟨⟨fun _ => by omega, fun _ => rfl⟩, fun hc => absurd hc hlt⟩

/-- Witness for C7: a timer whose `previous` (0) has not reached `log_target`
(5) gets a no-op `log` call. -/
theorem log_snapshot_iff_w :
    Timer.log (⟨0, 0, 10, 5, 10, 5, 0, 0, 2, true⟩ : Timer)
      = (none, ⟨0, 0, 10, 5, 10, 5, 0, 0, 2, true⟩) :=
  (log_snapshot_iff ⟨0, 0, 10, 5, 10, 5, 0, 0, 2, true⟩).2 (by decide)

/-- Counterexample to claim C8: starting from the default timer and setting
the (documented, nonnegative) logging interval to zero via the builder, the
very first `log` call produces a snapshot although no `frame` call has
occurred, so `framecount - prev_framecount = 0` and the division in `log`
divides by zero (a panic in Rust). -/
theorem log_zero_frames_cex :
    ((Timer.log (Timer.setLogInterval (Timer.default 0) 0)).1).isSome = true ∧
    (Timer.setLogInterval (Timer.default 0) 0).framecount
      - (Timer.setLogInterval (Timer.default 0) 0).prev_framecount = 0 :=
  ⟨rfl, rfl⟩

/-- Every `frame` or `log` step preserves `LogInv`. -/
lemma logInv_step {t u : Timer} (h : LogInv t) (s : Step t u) : LogInv u := by
  cases s with
  | frame mbw c t i =>
      obtain ⟨hli, hle, _⟩ := h
      obtain ⟨h1, h2, h3, _, _⟩ := frame_timer_fields mbw c t i
      refine ⟨?_, ?_, Or.inr ?_⟩
      · rw [h3]; exact hli
      · rw [h1, h2]; omega
      · rw [h1, h2]; omega
  | log t =>
      obtain ⟨hli, hle, hdisj⟩ := h
      by_cases hlt : t.previous < t.log_target
      · rw [log_none t hlt]
        exact ⟨hli, hle, hdisj⟩
      · rw [log_some t hlt]
        exact ⟨hli, Nat.le_refl _, Or.inl (Nat.lt_add_of_pos_right hli)⟩

/-- Every state reachable through `frame` and `log` calls preserves `LogInv`. -/
lemma logInv_reach {t u : Timer} (h : LogInv t) (r : Reach t u) : LogInv u := by
  induction r with
  | refl => exact h
  | tail _ s ih => exact logInv_step ih s

/-- Claim C8 (amended): from any state with a positive `log_interval` whose
log window has at least one frame outstanding or still open (`LogInv`, which
holds for the default timer), every state reachable by `frame` and `log`
calls yields `framecount - prev_framecount >= 1` whenever `log` produces a
snapshot. (With `log_interval` set to zero the original claim fails, and the
divisor used by the code is this difference truncated `as u32`.) -/
theorem log_frames_pos (t u : Timer) (h1 : LogInv t) (h2 : Reach t u)
    (h3 : ((Timer.log u).1).isSome = true) :
    1 ≤ u.framecount - u.prev_framecount := by
  obtain ⟨hli, hle, hdisj⟩ := logInv_reach h1 h2
  by_cases hlt : u.previous < u.log_target
  · rw [log_none u hlt] at h3
    simp at h3
  · rcases hdisj with hl | hr
    · exact absurd hl hlt
    · omega

/-- Witness for C8 (amended): one `frame` call against a clock reading 200
pushes `previous` past the 100ns log deadline, and the following snapshot
covers exactly one frame. -/
theorem log_frames_pos_w :
    1 ≤ (Timer.frame 0 (shiftClock 200)
          (⟨0, 0, 10, 100, 10, 100, 0, 0, 2, false⟩ : Timer) 0).timer.framecount
        - (Timer.frame 0 (shiftClock 200)
          (⟨0, 0, 10, 100, 10, 100, 0, 0, 2, false⟩ : Timer) 0).timer.prev_framecount :=
  log_frames_pos _ _ ⟨by decide, by decide, Or.inl (by decide)⟩
    (Reach.tail (Reach.refl _)
      (Step.frame 0 (shiftClock 200) ⟨0, 0, 10, 100, 10, 100, 0, 0, 2, false⟩ 0))
    (by decide)

/-- Rounding seconds to the nearest nanosecond loses at most half a
nanosecond. -/
lemma durationFromSecsF64_precise (s : ℚ) (hs : 0 < s) :
    |((durationFromSecsF64 s : ℚ)) / 1000000000 - s| ≤ 1 / 2000000000 := by
  unfold durationFromSecsF64
  have hx : (0 : ℚ) < s * 1000000000 := by positivity
  have hr : |s * 1000000000 - round (s * 1000000000)| ≤ 1 / 2 :=
    abs_sub_round (s * 1000000000)
  rw [abs_le] at hr
  have h0 : (0 : ℤ) ≤ round (s * 1000000000) := by
    by_contra hneg
    push_neg at hneg
    have h1 : round (s * 1000000000) ≤ -1 := by omega
    have h2 : ((round (s * 1000000000) : ℤ) : ℚ) ≤ -1 := by exact_mod_cast h1
    linarith [hr.2]
  have hcast : (((round (s * 1000000000)).toNat : ℚ))
      = ((round (s * 1000000000) : ℤ) : ℚ) := by
    exact_mod_cast Int.toNat_of_nonneg h0
  rw [hcast, abs_le]
  constructor <;> linarith [hr.1, hr.2]

/-- Claim C9: configuring via rate 0 makes the period exactly zero; via a
positive rate R it makes the period the nearest-nanosecond rendering of 1/R
seconds (within half a nanosecond of 1/R), and in both cases the configured
period is stored in the `delta_time` field the pacing logic reads, with the
next deadline scheduled one period after `previous`. -/
theorem fps_round_trip (t : Timer) (f : ℚ) :
    (Timer.fps t 0).delta_time = 0 ∧
    (Timer.fps t f).target = t.previous + (Timer.fps t f).delta_time ∧
    (0 < f →
      (Timer.fps t f).delta_time = durationFromSecsF64 (1 / f) ∧
      |((Timer.fps t f).delta_time : ℚ) / 1000000000 - 1 / f|
        ≤ 1 / 2000000000) := by
  refine ⟨by simp [Timer.fps, Timer.frame_time], ?_, ?_⟩
  · simp [Timer.fps, Timer.frame_time]
  · intro hf
    have hne : f ≠ 0 := ne_of_gt hf
    have hd : (Timer.fps t f).delta_time = durationFromSecsF64 (1 / f) := by
      simp [Timer.fps, Timer.frame_time, hne]
    refine ⟨hd, ?_⟩
    rw [hd]
    exact durationFromSecsF64_precise (1 / f) (by positivity)

/-- Witness for C9 at rate 2: the configured period is the rounded rendering
of half a second. -/
theorem fps_round_trip_w :
    (0 : ℚ) < 2 ∧
    (Timer.fps (⟨0, 0, 0, 0, 0, 0, 0, 0, 2, true⟩ : Timer) 2).delta_time
      = durationFromSecsF64 (1 / 2) :=
  ⟨by norm_num,
   ((fps_round_trip ⟨0, 0, 0, 0, 0, 0, 0, 0, 2, true⟩ 2).2.2 (by norm_num)).1⟩

/-- Claim C10: when the average frame duration of a snapshot is zero, the
average-rate accessor returns the positive-infinity sentinel; the division is
total and never traps. -/
theorem fps_average_inf (l : Log) (h : l.delta_avg = 0) :
    Log.fps_average l = F64.posInf := by
  simp [Log.fps_average, f64Div, asSecsF64, h]

/-- Witness for C10: a zero-duration snapshot reports an infinite rate. -/
theorem fps_average_inf_w : Log.fps_average ⟨0⟩ = F64.posInf :=
  fps_average_inf ⟨0⟩ rfl
